import Mathlib

/-!
# VisaVoyager agent-orchestration core: a shallow embedding

This file embeds the logic-bearing core of the VisaVoyager repository
(`src/services/gemini.ts`): the source reconciler, the evaluator guardrail,
the self-correcting retry loop of `searchVisaInfo`, the evaluator's
parse-or-default handling, the checklist finaliser, the passport-image
parser's post-processing, and the session-operation traces of the exported
orchestrator functions.

JavaScript strings are modelled as `List Char`; values that may be
`undefined`/`null` in the dynamic code are modelled as `Option`; JS
truthiness of an optional string (`undefined`, `null` and `""` are falsy)
is `truthyStr`.  Numbers flowing through the evaluator (`score`) are
modelled as `ℚ`.  Throwing code is modelled with `Except`.
-/

namespace VisaVoyager
/-- JavaScript strings, modelled as lists of characters. -/
abbrev JStr := List Char

/-- JS truthiness of an optional string value: `undefined`/`null`/`""` are
falsy, every non-empty string is truthy. -/
def truthyStr : Option JStr → Bool
  | none => false
  | some s => !s.isEmpty

/-- `o || d` for an optional string `o` and a default string `d`
(JS: the default is used when `o` is `undefined`, `null` or `""`). -/
def jsOrElse (o : Option JStr) (d : JStr) : JStr :=
  match o with
  | none => d
  | some s => if s.isEmpty then d else s

/-! ## Source citations and the reconciler

`gemini.ts` lines 277-290: explicit sources from the structured JSON are
concatenated with implicit sources mapped out of the grounding metadata,
then deduplicated by URI through an insertion-ordered `Map`, adding an
entry only when its `uri` is truthy and not yet a key of the map. -/

/-- A source citation as it appears in the structured JSON / merged list.
Both fields can be absent in the dynamic data. -/
structure SourceEntry where
  title : Option JStr
  uri : Option JStr
deriving DecidableEq, Repr

/-- The `web` payload of a grounding chunk. -/
structure WebChunk where
  title : Option JStr
  uri : Option JStr
deriving DecidableEq, Repr

/-- A grounding-metadata chunk: `chunk.web` may be absent. -/
structure GroundingChunk where
  web : Option WebChunk
deriving DecidableEq, Repr

/-- `raw.candidates?.[0]?.groundingMetadata?.groundingChunks?.map(chunk =>
chunk.web ? {title: chunk.web.title, uri: chunk.web.uri} : null).filter(Boolean)`:
each chunk with a `web` payload becomes a citation, the rest are dropped. -/
def metadataSources (chunks : List GroundingChunk) : List SourceEntry :=
  chunks.filterMap (fun c => c.web.map (fun w => ⟨w.title, w.uri⟩))

/-- The `allSources.forEach` loop over the insertion-ordered `Map`:
an entry is appended exactly when its `uri` is truthy and not already seen;
the first occurrence of each URI wins. `seen` is the set of keys already
in the map. -/
def dedupByUri : List SourceEntry → List JStr → List SourceEntry
  | [], _ => []
  | s :: rest, seen =>
    match s.uri with
    | some u =>
      if u ≠ [] ∧ u ∉ seen then s :: dedupByUri rest (u :: seen)
      else dedupByUri rest seen
    | none => dedupByUri rest seen

/-- The source reconciler: explicit (structured-JSON) sources first, then the
implicit grounding-metadata sources, deduplicated by URI, first occurrence
winning. -/
def reconcileSources (jsonSources : List SourceEntry) (chunks : List GroundingChunk) : List SourceEntry :=
  dedupByUri (jsonSources ++ metadataSources chunks) []

/-! ## Verification records and the manual guardrail -/

/-- The `AgentEvaluation` record `{score, pass, reasoning}`; `reasoning` may
be absent in a parsed evaluator response (the guardrail defends it with
`verification.reasoning || ""`). -/
structure AgentEvaluation where
  score : ℚ
  pass : Bool
  reasoning : Option JStr
deriving DecidableEq, Repr

/-- The text appended to the reasoning by the guardrail. -/
def missingSourcesNote : JStr := " Missing official source links.".data

/-- `gemini.ts` lines 301-306, the manual guardrail: when the reconciled
source list is empty, clamp the score to at most 5, force `pass = false` and
append the missing-sources note to the (defended) reasoning. -/
def applyGuardrail (v : AgentEvaluation) (sources : List SourceEntry) : AgentEvaluation :=
  if sources.length = 0 then
    { score := min v.score 5
      pass := false
      reasoning := some ((v.reasoning.getD []) ++ missingSourcesNote) }
  else v

/-! ## The parsed structured response of one attempt -/

/-- One entry of `whatsNext`. -/
structure StepEntry where
  title : Option JStr
  description : Option JStr
deriving DecidableEq, Repr

/-- The parsed structured JSON of one consultant response (every field of the
response schema may be absent). -/
structure CurrentData where
  visaStatus : Option JStr
  summary : Option JStr
  whatsNext : Option (List StepEntry)
  timeline : Option JStr
  requirements : Option (List JStr)
  sources : Option (List SourceEntry)
deriving DecidableEq, Repr

/-- `JSON.parse("{}")`: the empty object, every field absent. -/
def emptyData : CurrentData :=
  { visaStatus := none, summary := none, whatsNext := none,
    timeline := none, requirements := none, sources := none }

/-! ## The self-correction loop of `searchVisaInfo`

The external generation and evaluation calls are modelled as an environment
`env : ℕ → AttemptInput` giving, per attempt index, the parsed structured
data, the grounding chunks of the raw response envelope, and the parsed
evaluator verdict of that attempt (executions in which a call throws abort
the whole invocation and are outside this model). -/

/-- What the two external calls of one attempt deliver. -/
structure AttemptInput where
  data : CurrentData
  chunks : List GroundingChunk
  rawEval : AgentEvaluation
deriving DecidableEq, Repr

/-- The mutable state of the loop (`currentData`, `currentSources`,
`verification`), extended with the list of attempt indices performed so far. -/
structure LoopState where
  currentData : CurrentData
  currentSources : List SourceEntry
  verification : AgentEvaluation
  attemptsMade : List ℕ
deriving DecidableEq, Repr

/-- The state before the first iteration (`gemini.ts` lines 221-225). -/
def initialLoopState : LoopState :=
  { currentData := emptyData
    currentSources := []
    verification := { score := 0, pass := false, reasoning := some [] }
    attemptsMade := [] }

/-- `const MAX_RETRIES = 2`. -/
def MAX_RETRIES : ℕ := 2

/-- The reconciled source list of one attempt:
`jsonSources = currentData.sources || []` merged with the metadata sources. -/
def attemptSources (inp : AttemptInput) : List SourceEntry :=
  reconcileSources (inp.data.sources.getD []) inp.chunks

/-- The post-guardrail verification of one attempt. -/
def attemptVerification (inp : AttemptInput) : AgentEvaluation :=
  applyGuardrail inp.rawEval (attemptSources inp)

/-- One iteration body: run the agent, reconcile sources, evaluate, apply the
guardrail, and record the attempt index. -/
def processAttempt (attempts : ℕ) (st : LoopState) (inp : AttemptInput) : LoopState :=
  { currentData := inp.data
    currentSources := attemptSources inp
    verification := attemptVerification inp
    attemptsMade := st.attemptsMade ++ [attempts] }

/-- The `while (attempts <= MAX_RETRIES)` loop, with fuel: each iteration
either breaks (score ≥ 8) or increments `attempts`.  `searchLoop` supplies
enough fuel for the guard to be the only exit, so the fuel is invisible. -/
def searchLoopAux (env : ℕ → AttemptInput) (fuel attempts : ℕ) (st : LoopState) : LoopState :=
  match fuel with
  | 0 => st
  | Nat.succ fuel' =>
    if attempts ≤ MAX_RETRIES then
      let st' := processAttempt attempts st (env attempts)
      if 8 ≤ st'.verification.score then st'
      else searchLoopAux env fuel' (attempts + 1) st'
    else st

/-- The whole self-correction loop of `searchVisaInfo`. -/
def searchLoop (env : ℕ → AttemptInput) : LoopState :=
  searchLoopAux env (MAX_RETRIES + 1) 0 initialLoopState

/-! ## The returned Policy Record -/

/-- The returned `VisaPolicy` record. -/
structure VisaPolicy where
  country : JStr
  citizenship : JStr
  residency : JStr
  purpose : JStr
  visaStatus : JStr
  summary : JStr
  whatsNext : List StepEntry
  timeline : JStr
  requirements : List JStr
  sources : List SourceEntry
  verification : AgentEvaluation
deriving DecidableEq, Repr

/-- The return statement of `searchVisaInfo` (lines 316-328): every unfilled
field falls back to an explicit default (`||` for strings, so `""` also
falls back; `|| []` for the lists). -/
def buildPolicy (citizenship residency destination purpose : JStr) (st : LoopState) : VisaPolicy :=
  { country := destination
    citizenship := citizenship
    residency := residency
    purpose := purpose
    visaStatus := jsOrElse st.currentData.visaStatus "unknown".data
    summary := jsOrElse st.currentData.summary "Summary not available".data
    whatsNext := st.currentData.whatsNext.getD []
    timeline := jsOrElse st.currentData.timeline "Check official sources".data
    requirements := st.currentData.requirements.getD []
    sources := st.currentSources
    verification := st.verification }

/-- `searchVisaInfo`, for the executions in which no external call throws:
run the loop, then build the Policy Record from the final state. -/
def searchVisaInfo (citizenship residency destination purpose : JStr)
    (env : ℕ → AttemptInput) : VisaPolicy :=
  buildPolicy citizenship residency destination purpose (searchLoop env)

/-- A concrete environment in which every attempt reconciles zero sources,
so every attempt's verification is clamped below 8 and the loop exhausts
its budget. -/
def envAllClamped : ℕ → AttemptInput := fun _ =>
  { data := emptyData
    chunks := []
    rawEval := { score := 9, pass := true, reasoning := none } }

/-- A source entry with a government URI, used by concrete environments. -/
def srcGov : SourceEntry :=
  { title := some "Official portal".data, uri := some "https://official.example/visa".data }

/-- A concrete environment whose attempts all carry a source (so no clamp)
and score 7, 6, 5: attempt 0 scores highest yet the last attempt is kept. -/
def envDescendingScores : ℕ → AttemptInput := fun i =>
  { data := { emptyData with sources := some [srcGov] }
    chunks := []
    rawEval := { score := if i = 0 then 7 else if i = 1 then 6 else 5
                 pass := false
                 reasoning := some "weak".data } }

/-- A grounding chunk that echoes `srcGov`'s URI with its own title. -/
def chunkGov : GroundingChunk :=
  { web := some { title := some "official.example".data, uri := some "https://official.example/visa".data } }

/-! ## Session-operation traces of the exported orchestrator functions

Each exported function's interactions with the three module-level persona
sessions, in program order.  `AgentSession.evaluateOutput` and
`parsePassportImage` call `ai.models.generateContent` directly and touch no
session history, so they contribute no session operation. -/

/-- The three module-level persona sessions. -/
inductive Persona where
  | consultant
  | guide
  | drafter
deriving DecidableEq, Repr

/-- A session operation: `clearSession()` or `run(...)` on a persona. -/
inductive SessionOp where
  | clear (p : Persona)
  | run (p : Persona)
deriving DecidableEq, Repr

/-- `getCommonVisaPurposes`: `visaConsultant.clearSession()` then one
`visaConsultant.run`. -/
def getCommonVisaPurposesOps : List SessionOp :=
  [.clear .consultant, .run .consultant]

/-- `getTravelAdvisory`: `travelGuide.clearSession()` then one
`travelGuide.run`. -/
def getTravelAdvisoryOps : List SessionOp :=
  [.clear .guide, .run .guide]

/-- `searchVisaInfo`: `visaConsultant.clearSession()` then one
`visaConsultant.run` per attempt performed (1 to 3 attempts). -/
def searchVisaInfoOps (attemptsPerformed : ℕ) : List SessionOp :=
  SessionOp.clear .consultant :: List.replicate attemptsPerformed (.run .consultant)

/-- `generateDocumentChecklist`: one `legalDrafter.run`, with no
`clearSession` anywhere in the function body. -/
def generateDocumentChecklistOps : List SessionOp :=
  [.run .drafter]

/-- `generateVisaDocument`: one `legalDrafter.run`, with no `clearSession`
anywhere in the function body. -/
def generateVisaDocumentOps : List SessionOp :=
  [.run .drafter]

/-- `parsePassportImage`: no session operation at all. -/
def parsePassportImageOps : List SessionOp := []

/-- Whether every `run p` in the trace is preceded by a `clear p`;
`seen` accumulates the operations already executed (most recent first). -/
def resetBeforeRunAux : List SessionOp → List SessionOp → Bool
  | _, [] => true
  | seen, .clear p :: rest => resetBeforeRunAux (.clear p :: seen) rest
  | seen, .run p :: rest =>
    decide (SessionOp.clear p ∈ seen) && resetBeforeRunAux (.run p :: seen) rest

/-- Every `run` on a persona is preceded in the trace by a `clear` of the
same persona. -/
def resetBeforeRun (ops : List SessionOp) : Bool :=
  resetBeforeRunAux [] ops

/-! ## Checklist generation (`generateDocumentChecklist`) -/

/-- A checklist item as parsed from the generation call's JSON; any field may
be absent, including a `completed`-like field the model might have emitted. -/
structure ChecklistItemJson where
  id : Option JStr
  name : Option JStr
  description : Option JStr
  isRequired : Option Bool
  completed : Option Bool
deriving DecidableEq, Repr

/-- A checklist item as returned to the caller. -/
structure DocumentItem where
  id : Option JStr
  name : Option JStr
  description : Option JStr
  isRequired : Option Bool
  completed : Bool
deriving DecidableEq, Repr

/-- `items.map(item => ({ ...item, completed: false }))`: spread the parsed
item, then overwrite `completed` with `false`. -/
def finalizeChecklist (items : List ChecklistItemJson) : List DocumentItem :=
  items.map (fun it =>
    { id := it.id, name := it.name, description := it.description,
      isRequired := it.isRequired, completed := false })

/-- A parsed item claiming to be already completed. -/
def itemClaimingCompleted : ChecklistItemJson :=
  { id := some "doc-1".data
    name := some "Passport".data
    description := some "Valid passport".data
    isRequired := some true
    completed := some true }

/-- The finalized form of `itemClaimingCompleted`. -/
def itemFinalized : DocumentItem :=
  { id := some "doc-1".data
    name := some "Passport".data
    description := some "Valid passport".data
    isRequired := some true
    completed := false }

/-! ## The evaluator prompt (`AgentSession.evaluateOutput`) -/

/-- The template text before the criteria. -/
def auditorPromptHead : JStr :=
  "You are an AI Output Auditor. \n      \n      Task: Evaluate the quality of the following JSON data based on these criteria: \"".data

/-- The template text between the criteria and the truncated content. -/
def auditorPromptMid : JStr :=
  "\".\n      \n      Data to Evaluate:\n      ".data

/-- The template text after the truncated content. -/
def auditorPromptTail : JStr :=
  "\n      \n      Return JSON with:\n      - score: number (1-10, where 10 is perfect)\n      - pass: boolean (true if usable, false if hallucinated or broken)\n      - reasoning: string (brief explanation)".data

/-- The `contents` string of the evaluator's generation call:
the template with the criteria interpolated and the candidate content
truncated to its first 3000 characters (`content.substring(0, 3000)`). -/
def buildAuditorPrompt (content criteria : JStr) : JStr :=
  auditorPromptHead ++ criteria ++ auditorPromptMid ++ content.take 3000 ++ auditorPromptTail

/-- A 3001-character content. -/
def longContentA : JStr := List.replicate 3001 'a'

/-- A content agreeing with `longContentA` on the first 3000 characters but
differing at position 3000. -/
def longContentB : JStr := List.replicate 3000 'a' ++ ['b']

/-! ## A model of `JSON.parse`

A recursive-descent parser for the JSON subset the evaluator's and the
passport parser's schema-constrained responses live in: objects with
string keys and number / string / boolean / null / object values (no
arrays, no exponent notation).  A `none` result models `JSON.parse`
throwing a `SyntaxError`. -/

/-- A parsed JSON value. -/
inductive JsonV where
  | num (q : ℚ)
  | str (s : JStr)
  | bool (b : Bool)
  | null
  | obj (fields : List (JStr × JsonV))

/-- JSON whitespace. -/
def isWsChar (c : Char) : Bool :=
  c = ' ' || c = '\n' || c = '\t' || c = '\r'

/-- Skip leading whitespace. -/
def skipWs : JStr → JStr
  | [] => []
  | c :: rest => if isWsChar c then skipWs rest else c :: rest

/-- The character denoted by a backslash escape. -/
def escapeChar (c : Char) : Option Char :=
  if c = '"' then some '"'
  else if c = '\\' then some '\\'
  else if c = '/' then some '/'
  else if c = 'n' then some '\n'
  else if c = 't' then some '\t'
  else if c = 'r' then some '\r'
  else none

/-- Parse the body of a string literal after its opening quote, returning
the string and the remaining input after the closing quote. -/
def parseStringBody : JStr → Option (JStr × JStr)
  | [] => none
  | '"' :: rest => some ([], rest)
  | '\\' :: rest =>
    match rest with
    | [] => none
    | e :: rest' =>
      match escapeChar e with
      | some c => (parseStringBody rest').map (fun p => (c :: p.1, p.2))
      | none => none
  | c :: rest => (parseStringBody rest).map (fun p => (c :: p.1, p.2))

/-- The natural number denoted by a digit string. -/
def digitsToNat (l : JStr) : ℕ :=
  l.foldl (fun a c => a * 10 + (c.toNat - 48)) 0

/-- Parse a JSON number (optional sign, integer part, optional fraction). -/
def parseNumber (l : JStr) : Option (ℚ × JStr) :=
  let sl : Bool × JStr :=
    match l with
    | '-' :: r => (true, r)
    | _ => (false, l)
  let ds := sl.2.takeWhile Char.isDigit
  let r1 := sl.2.dropWhile Char.isDigit
  if ds.isEmpty then none
  else
    let ipart : ℚ := (digitsToNat ds : ℚ)
    match r1 with
    | '.' :: r2 =>
      let fs := r2.takeWhile Char.isDigit
      if fs.isEmpty then none
      else
        let q := ipart + (digitsToNat fs : ℚ) / ((10 : ℚ) ^ fs.length)
        some (if sl.1 then -q else q, r2.dropWhile Char.isDigit)
    | _ => some (if sl.1 then -ipart else ipart, r1)

/-- Parse the members of an object after its opening brace, given a parser
`pv` for values; returns the field list and the input after the closing
brace. -/
def parseMembers (pv : JStr → Option (JsonV × JStr)) : ℕ → JStr → Option (List (JStr × JsonV) × JStr)
  | 0, _ => none
  | Nat.succ fuel, input =>
    match skipWs input with
    | '"' :: rest =>
      match parseStringBody rest with
      | none => none
      | some (key, r1) =>
        match skipWs r1 with
        | ':' :: r2 =>
          match pv r2 with
          | none => none
          | some (v, r3) =>
            match skipWs r3 with
            | ',' :: r4 =>
              match parseMembers pv fuel r4 with
              | none => none
              | some (ms, r5) => some ((key, v) :: ms, r5)
            | '\x7d' :: r4 => some ([(key, v)], r4)
            | _ => none
        | _ => none
    | _ => none

/-- Parse one JSON value, returning it and the remaining input. -/
def parseValue : ℕ → JStr → Option (JsonV × JStr)
  | 0, _ => none
  | Nat.succ fuel, input =>
    match skipWs input with
    | '"' :: rest => (parseStringBody rest).map (fun p => (JsonV.str p.1, p.2))
    | '\x7b' :: rest =>
      match skipWs rest with
      | '\x7d' :: r2 => some (JsonV.obj [], r2)
      | _ => (parseMembers (parseValue fuel) fuel rest).map (fun p => (JsonV.obj p.1, p.2))
    | 't' :: 'r' :: 'u' :: 'e' :: rest => some (JsonV.bool true, rest)
    | 'f' :: 'a' :: 'l' :: 's' :: 'e' :: rest => some (JsonV.bool false, rest)
    | 'n' :: 'u' :: 'l' :: 'l' :: rest => some (JsonV.null, rest)
    | l => (parseNumber l).map (fun p => (JsonV.num p.1, p.2))

/-- `JSON.parse`: parse a value and require only whitespace after it;
`none` models a thrown `SyntaxError`. -/
def jsonParse (s : JStr) : Option JsonV :=
  match parseValue (s.length + 1) s with
  | some (v, rest) => if (skipWs rest).isEmpty then some v else none
  | none => none

/-! ## The evaluator's parse-or-default (`AgentSession.evaluateOutput`) -/

/-- The fail-safe default literal of
`JSON.parse(evalResponse.text || '{"score": 0, "pass": false, "reasoning": "Evaluation failed"}')`. -/
def evalFailSafeText : JStr :=
  "\x7b\"score\": 0, \"pass\": false, \"reasoning\": \"Evaluation failed\"\x7d".data

/-- The value that literal parses to. -/
def failSafeEvalJson : JsonV :=
  JsonV.obj [("score".data, JsonV.num 0), ("pass".data, JsonV.bool false),
    ("reasoning".data, JsonV.str "Evaluation failed".data)]

/-- The final statement of `AgentSession.evaluateOutput`:
`JSON.parse(evalResponse.text || <default>)`.  The default substitutes only
when the response text is absent or empty; `Except.error` models the
`SyntaxError` a malformed non-empty text raises, which propagates to the
caller. -/
def evaluateOutput (respText : Option JStr) : Except Unit JsonV :=
  match jsonParse (jsOrElse respText evalFailSafeText) with
  | some v => Except.ok v
  | none => Except.error ()

/-! ## Passport image parsing (`parsePassportImage`) -/

/-- The markdown fence marker checked by `cleanedText.startsWith("```")`. -/
def fenceMarker : JStr := "```".data

/-- The prefix removed by `replace(/^```(json)?\n/, "")` when the `json` tag
is present. -/
def fenceOpenJson : JStr := "```json\n".data

/-- The prefix removed by `replace(/^```(json)?\n/, "")` without the tag. -/
def fenceOpenPlain : JStr := "```\n".data

/-- The suffix removed by `replace(/\n```$/, "")`. -/
def fenceClose : JStr := "\n```".data

/-- `replace(/^```(json)?\n/, "")`: the regex prefers the tagged form. -/
def stripFenceOpen (s : JStr) : JStr :=
  if fenceOpenJson.isPrefixOf s then s.drop fenceOpenJson.length
  else if fenceOpenPlain.isPrefixOf s then s.drop fenceOpenPlain.length
  else s

/-- `replace(/\n```$/, "")`. -/
def stripFenceClose (s : JStr) : JStr :=
  if fenceClose.isSuffixOf s then s.take (s.length - fenceClose.length) else s

/-- The fence-stripping step of `parsePassportImage`: both replacements run
only when the text starts with the fence marker. -/
def cleanResponseText (s : JStr) : JStr :=
  if fenceMarker.isPrefixOf s then stripFenceClose (stripFenceOpen s) else s

/-- The parsed identity fields of the passport response (a field is `none`
when missing, `null`, or not a string). -/
structure PassportJson where
  fullName : Option JStr
  passportNumber : Option JStr
  citizenship : Option JStr
  dateOfBirth : Option JStr
  passportExpiry : Option JStr
deriving DecidableEq, Repr

/-- The partial `UserProfile` returned on success. -/
structure UserProfileDelta where
  fullName : Option JStr
  passportNumber : Option JStr
  citizenship : Option JStr
  dateOfBirth : Option JStr
  passportExpiry : Option JStr
deriving DecidableEq, Repr

/-- The error message of `parsePassportImage`. -/
def couldNotExtractMsg : JStr :=
  "Could not extract passport details. The image might be too blurry or obscure.".data

/-- The identity-anchor check and return of `parsePassportImage`:
`if (!result.passportNumber && !result.fullName) throw ...` — JS truthiness,
so missing, `null` and `""` all count as absent — else return the fields. -/
def extractPassport (result : PassportJson) : Except JStr UserProfileDelta :=
  if !truthyStr result.passportNumber && !truthyStr result.fullName then
    Except.error couldNotExtractMsg
  else
    Except.ok
      { fullName := result.fullName
        passportNumber := result.passportNumber
        citizenship := result.citizenship
        dateOfBirth := result.dateOfBirth
        passportExpiry := result.passportExpiry }

/-- Look up a key in a parsed JSON object's field list. -/
def jlookup (fields : List (JStr × JsonV)) (k : JStr) : Option JsonV :=
  (fields.find? (fun p => decide (p.1 = k))).map Prod.snd

/-- Read a string-valued field of a parsed JSON value; anything that is not
a string (missing key, `null`, non-object) is an absent field. -/
def jsStrField (j : JsonV) (k : JStr) : Option JStr :=
  match j with
  | JsonV.obj fs =>
    match jlookup fs k with
    | some (JsonV.str s) => some s
    | _ => none
  | _ => none

/-- `parsePassportImage` after the generation call: default the text to
`"{}"`, strip fences, `JSON.parse` (a `none` models the thrown
`SyntaxError`), then check the identity anchors and return the fields. -/
def parsePassportImage (respText : Option JStr) : Except JStr UserProfileDelta :=
  match jsonParse (cleanResponseText (jsOrElse respText "\x7b\x7d".data)) with
  | none => Except.error "SyntaxError".data
  | some j =>
    extractPassport
      { fullName := jsStrField j "fullName".data
        passportNumber := jsStrField j "passportNumber".data
        citizenship := jsStrField j "citizenship".data
        dateOfBirth := jsStrField j "dateOfBirth".data
        passportExpiry := jsStrField j "passportExpiry".data }

/-- A parsed result whose `fullName` is present but the empty string, with
no passport number. -/
def passportEmptyName : PassportJson :=
  { fullName := some []
    passportNumber := none
    citizenship := none
    dateOfBirth := none
    passportExpiry := none }

/-- A parsed result carrying only a passport number. -/
def passportNumberOnly : PassportJson :=
  { fullName := none
    passportNumber := some "X1234567".data
    citizenship := none
    dateOfBirth := none
    passportExpiry := none }

/-! ## Theorems -/

/-! ### Fuel adequacy and a closed form of the loop -/

/-- With the fuel `searchLoop` supplies, the guard `attempts ≤ MAX_RETRIES`
is the only exit: any additional fuel yields the same result, so the fueled
recursion is the `while` loop. -/
theorem searchLoopAux_fuel_irrelevant (env : ℕ → AttemptInput) :
    ∀ fuel extra attempts st, MAX_RETRIES + 1 ≤ fuel + attempts →
      searchLoopAux env (fuel + extra) attempts st = searchLoopAux env fuel attempts st := by
  intro fuel
  induction fuel with
  | zero =>
    intro extra attempts st h
    have hgt : MAX_RETRIES < attempts := by omega
    cases extra with
    | zero => rfl
    | succ e =>
      simp only [searchLoopAux, Nat.zero_add]
      rw [if_neg (show ¬ attempts ≤ MAX_RETRIES by omega)]
  | succ f ih =>
    intro extra attempts st h
    simp only [Nat.succ_add, searchLoopAux]
    by_cases hle : attempts ≤ MAX_RETRIES
    · rw [if_pos hle, if_pos hle]
      by_cases hs : 8 ≤ (processAttempt attempts st (env attempts)).verification.score
      · rw [if_pos hs, if_pos hs]
      · rw [if_neg hs, if_neg hs]
        exact ih extra (attempts + 1) _ (by omega)
    · rw [if_neg hle, if_neg hle]

/-- Closed form of the loop: at most three attempts, exiting early as soon as
the post-guardrail score reaches 8. -/
theorem searchLoop_eq (env : ℕ → AttemptInput) :
    searchLoop env =
      (if 8 ≤ (processAttempt 0 initialLoopState (env 0)).verification.score then
        processAttempt 0 initialLoopState (env 0)
      else if 8 ≤ (processAttempt 1 (processAttempt 0 initialLoopState (env 0)) (env 1)).verification.score then
        processAttempt 1 (processAttempt 0 initialLoopState (env 0)) (env 1)
      else
        processAttempt 2 (processAttempt 1 (processAttempt 0 initialLoopState (env 0)) (env 1)) (env 2)) := by
  show searchLoopAux env 3 0 initialLoopState = _
  simp only [searchLoopAux, MAX_RETRIES]
  norm_num

/-- The final loop state is the processed output of one of the attempts
0, 1, 2 (whichever the loop stopped at). -/
theorem searchLoop_is_some_attempt (env : ℕ → AttemptInput) :
    ∃ i, i ≤ 2 ∧ (searchLoop env).currentSources = attemptSources (env i) ∧
      (searchLoop env).verification = attemptVerification (env i) := by
  rw [searchLoop_eq]
  by_cases h0 : 8 ≤ (processAttempt 0 initialLoopState (env 0)).verification.score
  · rw [if_pos h0]
    exact ⟨0, by omega, by simp [processAttempt], by simp [processAttempt]⟩
  · rw [if_neg h0]
    by_cases h1 : 8 ≤ (processAttempt 1 (processAttempt 0 initialLoopState (env 0)) (env 1)).verification.score
    · rw [if_pos h1]
      exact ⟨1, by omega, by simp [processAttempt], by simp [processAttempt]⟩
    · rw [if_neg h1]
      exact ⟨2, by omega, by simp [processAttempt], by simp [processAttempt]⟩

/-- The guardrail on an empty source list: score clamped to at most 5 and
the missing-sources note appears in the reasoning. -/
theorem applyGuardrail_empty (v : AgentEvaluation) :
    (applyGuardrail v []).score ≤ 5 ∧
    missingSourcesNote <:+: ((applyGuardrail v []).reasoning.getD []) := by
  constructor
  · simp [applyGuardrail]
  · exact ⟨v.reasoning.getD [], [], by simp [applyGuardrail]⟩

/-- C1: every invocation of `searchVisaInfo` performs at most 3 attempts,
whose indices are 0, 1, 2 in order, and an attempt `i + 1` is only issued
when attempt `i`'s post-guardrail verification score was below 8 — once a
score reaches 8 the loop stops immediately. -/
theorem searchVisaInfo_retry_budget (env : ℕ → AttemptInput) :
    (searchLoop env).attemptsMade.length ≤ 3 ∧
    (searchLoop env).attemptsMade = List.range (searchLoop env).attemptsMade.length ∧
    ∀ i : ℕ, (i + 1) ∈ (searchLoop env).attemptsMade →
      (attemptVerification (env i)).score < 8 := by
  rw [searchLoop_eq]
  by_cases h0 : 8 ≤ (processAttempt 0 initialLoopState (env 0)).verification.score
  · rw [if_pos h0]
    refine ⟨by simp [processAttempt, initialLoopState], ?_, ?_⟩
    · show ([0] : List ℕ) = List.range ([0] : List ℕ).length
      decide
    · intro i hi
      simp [processAttempt, initialLoopState] at hi
  · rw [if_neg h0]
    simp only [processAttempt] at h0
    by_cases h1 : 8 ≤ (processAttempt 1 (processAttempt 0 initialLoopState (env 0)) (env 1)).verification.score
    · rw [if_pos h1]
      refine ⟨by simp [processAttempt, initialLoopState], ?_, ?_⟩
      · simp [processAttempt, initialLoopState]
        decide
      · intro i hi
        simp [processAttempt, initialLoopState] at hi
        have : i = 0 := by omega
        subst this
        exact lt_of_not_le h0
    · rw [if_neg h1]
      simp only [processAttempt] at h1
      refine ⟨by simp [processAttempt, initialLoopState], ?_, ?_⟩
      · simp [processAttempt, initialLoopState]
        decide
      · intro i hi
        simp [processAttempt, initialLoopState] at hi
        rcases hi with hi | hi
        · have : i = 0 := by omega
          subst this
          exact lt_of_not_le h0
        · have : i = 1 := by omega
          subst this
          exact lt_of_not_le h1

/-- Witness for C1 at `envAllClamped`: attempt 1 was issued, so attempt 0
scored below 8. -/
theorem searchVisaInfo_retry_budget_witness :
    (attemptVerification (envAllClamped 0)).score < 8 :=
  (searchVisaInfo_retry_budget envAllClamped).2.2 0 (by decide)

/-- C2: when all three attempts score below 8 after the guardrail, the
returned Policy Record's data, sources and Verification are exactly those of
attempt index 2, the last attempt. -/
theorem searchVisaInfo_exhaustion_returns_last
    (citizenship residency destination purpose : JStr) (env : ℕ → AttemptInput)
    (h : ∀ i, i ≤ 2 → (attemptVerification (env i)).score < 8) :
    (searchLoop env).currentData = (env 2).data ∧
    (searchLoop env).currentSources = attemptSources (env 2) ∧
    (searchLoop env).verification = attemptVerification (env 2) ∧
    searchVisaInfo citizenship residency destination purpose env =
      buildPolicy citizenship residency destination purpose
        { currentData := (env 2).data
          currentSources := attemptSources (env 2)
          verification := attemptVerification (env 2)
          attemptsMade := [0, 1, 2] } := by
  have hstate : searchLoop env =
      { currentData := (env 2).data
        currentSources := attemptSources (env 2)
        verification := attemptVerification (env 2)
        attemptsMade := [0, 1, 2] } := by
    rw [searchLoop_eq]
    rw [if_neg (by simpa [processAttempt] using not_le.mpr (h 0 (by omega)))]
    rw [if_neg (by simpa [processAttempt] using not_le.mpr (h 1 (by omega)))]
    simp [processAttempt, initialLoopState]
  exact ⟨by rw [hstate], by rw [hstate], by rw [hstate],
    by unfold searchVisaInfo; rw [hstate]⟩

/-- Witness for C2 at `envDescendingScores`: the returned verification is
attempt 2's, even though attempt 0 scored higher. -/
theorem searchVisaInfo_exhaustion_returns_last_witness :
    (searchLoop envDescendingScores).verification = attemptVerification (envDescendingScores 2) :=
  (searchVisaInfo_exhaustion_returns_last [] [] [] [] envDescendingScores
    (by intro i hi; interval_cases i <;> decide)).2.2.1

/-- C3: an attempt whose reconciled source list is empty gets a verification
with score at most 5 and a missing-sources notice inside its reasoning,
whatever the evaluation call returned; in particular this holds for the
returned verification when the final source list is empty. -/
theorem searchVisaInfo_empty_sources_guardrail (v : AgentEvaluation) (env : ℕ → AttemptInput) :
    ((applyGuardrail v []).score ≤ 5 ∧
      missingSourcesNote <:+: ((applyGuardrail v []).reasoning.getD [])) ∧
    ((searchLoop env).currentSources = [] →
      (searchLoop env).verification.score ≤ 5 ∧
      missingSourcesNote <:+: ((searchLoop env).verification.reasoning.getD [])) := by
  refine ⟨applyGuardrail_empty v, ?_⟩
  intro hempty
  obtain ⟨i, _, hsrc, hver⟩ := searchLoop_is_some_attempt env
  rw [hsrc] at hempty
  rw [hver]
  unfold attemptVerification
  rw [hempty]
  exact applyGuardrail_empty _

/-- Witness for C3 at `envAllClamped`: the final source list is empty, and
the returned verification is clamped with the notice appended. -/
theorem searchVisaInfo_empty_sources_guardrail_witness :
    (searchLoop envAllClamped).verification.score ≤ 5 ∧
    missingSourcesNote <:+: ((searchLoop envAllClamped).verification.reasoning.getD []) :=
  (searchVisaInfo_empty_sources_guardrail
    { score := 0, pass := false, reasoning := none } envAllClamped).2 (by decide)

/-! ## Reconciler claims -/

/-- Equation: an entry without a URI is skipped. -/
theorem dedupByUri_cons_none (a : SourceEntry) (rest : List SourceEntry)
    (seen : List JStr) (ha : a.uri = none) :
    dedupByUri (a :: rest) seen = dedupByUri rest seen := by
  obtain ⟨t, u⟩ := a
  cases ha
  rfl

/-- Equation: an entry with a fresh non-empty URI is kept and its URI
becomes a key. -/
theorem dedupByUri_cons_keep (a : SourceEntry) (rest : List SourceEntry)
    (seen : List JStr) (v : JStr) (ha : a.uri = some v) (hv : v ≠ [] ∧ v ∉ seen) :
    dedupByUri (a :: rest) seen = a :: dedupByUri rest (v :: seen) := by
  obtain ⟨t, u⟩ := a
  cases ha
  exact if_pos hv

/-- Equation: an entry with an empty or already-seen URI is dropped. -/
theorem dedupByUri_cons_drop (a : SourceEntry) (rest : List SourceEntry)
    (seen : List JStr) (v : JStr) (ha : a.uri = some v) (hv : ¬(v ≠ [] ∧ v ∉ seen)) :
    dedupByUri (a :: rest) seen = dedupByUri rest seen := by
  obtain ⟨t, u⟩ := a
  cases ha
  exact if_neg hv

/-- Every entry of the deduplicated list carries a non-empty URI that was not
yet a key of the map when deduplication started. -/
theorem dedupByUri_mem_uri :
    ∀ (l : List SourceEntry) (seen : List JStr) (s : SourceEntry),
      s ∈ dedupByUri l seen → ∃ u, s.uri = some u ∧ u ≠ [] ∧ u ∉ seen := by
  intro l
  induction l with
  | nil => intro seen s hs; simp [dedupByUri] at hs
  | cons a rest ih =>
    intro seen s hs
    cases ha : a.uri with
    | none =>
      rw [dedupByUri_cons_none a rest seen ha] at hs
      exact ih seen s hs
    | some v =>
      by_cases hv : v ≠ [] ∧ v ∉ seen
      · rw [dedupByUri_cons_keep a rest seen v ha hv] at hs
        rcases List.mem_cons.mp hs with hs | hs
        · subst hs
          exact ⟨v, ha, hv.1, hv.2⟩
        · obtain ⟨u, hu, hne, hmem⟩ := ih (v :: seen) s hs
          exact ⟨u, hu, hne, fun hc => hmem (List.mem_cons_of_mem _ hc)⟩
      · rw [dedupByUri_cons_drop a rest seen v ha hv] at hs
        exact ih seen s hs

/-- Deduplication leaves no URI twice: the mapped URI list has no
duplicates. -/
theorem dedupByUri_map_uri_nodup :
    ∀ (l : List SourceEntry) (seen : List JStr),
      ((dedupByUri l seen).map SourceEntry.uri).Nodup := by
  intro l
  induction l with
  | nil => intro seen; simp [dedupByUri]
  | cons a rest ih =>
    intro seen
    cases ha : a.uri with
    | none => rw [dedupByUri_cons_none a rest seen ha]; exact ih seen
    | some v =>
      by_cases hv : v ≠ [] ∧ v ∉ seen
      · rw [dedupByUri_cons_keep a rest seen v ha hv]
        simp only [List.map_cons, List.nodup_cons]
        refine ⟨?_, ih (v :: seen)⟩
        intro hmem
        obtain ⟨s, hs, hsuri⟩ := List.mem_map.mp hmem
        obtain ⟨u, hu, _, hnotin⟩ := dedupByUri_mem_uri rest (v :: seen) s hs
        rw [hu] at hsuri
        rw [ha] at hsuri
        have : u = v := by injection hsuri
        exact hnotin (this ▸ List.mem_cons_self v seen)
      · rw [dedupByUri_cons_drop a rest seen v ha hv]
        exact ih seen

/-- C6: all URIs of a reconciled source list are unique — no URI keys two
distinct entries of the merged output. -/
theorem reconcileSources_uri_nodup (jsonSources : List SourceEntry) (chunks : List GroundingChunk) :
    ((reconcileSources jsonSources chunks).map SourceEntry.uri).Nodup :=
  dedupByUri_map_uri_nodup _ []

/-- Deduplication preserves the first entry carrying a given fresh,
non-empty URI. -/
theorem dedupByUri_find? (u : JStr) (hu : u ≠ []) :
    ∀ (l : List SourceEntry) (seen : List JStr), u ∉ seen →
      (dedupByUri l seen).find? (fun s => decide (s.uri = some u)) =
        l.find? (fun s => decide (s.uri = some u)) := by
  intro l
  induction l with
  | nil => intro seen _; rfl
  | cons a rest ih =>
    intro seen hseen
    cases ha : a.uri with
    | none =>
      rw [dedupByUri_cons_none a rest seen ha]
      rw [List.find?_cons_of_neg _ (by simp [ha])]
      exact ih seen hseen
    | some v =>
      by_cases hv : v ≠ [] ∧ v ∉ seen
      · rw [dedupByUri_cons_keep a rest seen v ha hv]
        by_cases huv : v = u
        · subst huv
          rw [List.find?_cons_of_pos _ (by simp [ha]),
            List.find?_cons_of_pos _ (by simp [ha])]
        · rw [List.find?_cons_of_neg _ (by simp [ha, huv]),
            List.find?_cons_of_neg _ (by simp [ha, huv])]
          refine ih (v :: seen) ?_
          simp only [List.mem_cons, not_or]
          exact ⟨fun h => huv h.symm, hseen⟩
      · rw [dedupByUri_cons_drop a rest seen v ha hv]
        have huv : v ≠ u := by
          intro hc
          subst hc
          exact hv ⟨hu, hseen⟩
        rw [List.find?_cons_of_neg _ (by simp [ha, huv])]
        exact ih seen hseen

/-- C5: when the explicit (structured-JSON) source list holds an entry with
a given non-empty URI and the implicit (grounding-metadata) list holds an
entry with the same URI, the merged output's entry for that URI is the first
explicit entry — its title is retained, because explicit sources come first
and the first occurrence of each URI wins. -/
theorem reconcileSources_explicit_title_wins
    (jsonSources : List SourceEntry) (chunks : List GroundingChunk)
    (u : JStr) (e : SourceEntry)
    (hu : u ≠ [])
    (hfind : jsonSources.find? (fun s => decide (s.uri = some u)) = some e)
    (_himp : ∃ m ∈ metadataSources chunks, m.uri = some u) :
    (reconcileSources jsonSources chunks).find? (fun s => decide (s.uri = some u)) = some e := by
  unfold reconcileSources
  rw [dedupByUri_find? u hu _ [] (by simp)]
  rw [List.find?_append, hfind]
  rfl

/-- Witness for C5: explicit `srcGov` and an implicit chunk share a URI; the
merged entry for that URI is `srcGov`, keeping its title. -/
theorem reconcileSources_explicit_title_wins_witness :
    (reconcileSources [srcGov] [chunkGov]).find?
      (fun s => decide (s.uri = some "https://official.example/visa".data)) = some srcGov :=
  reconcileSources_explicit_title_wins [srcGov] [chunkGov]
    "https://official.example/visa".data srcGov (by decide) (by decide)
    ⟨{ title := some "official.example".data, uri := some "https://official.example/visa".data },
      by decide, by decide⟩

/-- A trace whose every element is `run .consultant` passes
`resetBeforeRunAux` whenever the consultant was already cleared. -/
theorem resetBeforeRunAux_all_consultant_runs :
    ∀ (l seen : List SessionOp),
      (∀ op ∈ l, op = SessionOp.run .consultant) →
      SessionOp.clear .consultant ∈ seen →
      resetBeforeRunAux seen l = true := by
  intro l
  induction l with
  | nil => intro seen _ _; rfl
  | cons a rest ih =>
    intro seen hall hseen
    have ha : a = SessionOp.run .consultant := hall a (List.mem_cons_self a rest)
    subst ha
    show (decide (SessionOp.clear .consultant ∈ seen) && resetBeforeRunAux (.run .consultant :: seen) rest) = true
    rw [decide_eq_true hseen, Bool.true_and]
    exact ih (.run .consultant :: seen) (fun op hop => hall op (List.mem_cons_of_mem _ hop))
      (List.mem_cons_of_mem _ hseen)

/-- C7 counterexample: the checklist-generation and document-drafting
functions issue a `run` on the drafter persona with no preceding
`clearSession`, so the claim that every exported orchestrator function
resets its persona before running fails on them. -/
theorem drafter_functions_never_reset :
    resetBeforeRun generateDocumentChecklistOps = false ∧
    resetBeforeRun generateVisaDocumentOps = false := by
  decide

/-- C7 amended: the consultant- and guide-persona orchestrators
(`getCommonVisaPurposes`, `getTravelAdvisory`, `searchVisaInfo` for any
number of attempts) clear their persona's session before the first `run`,
while the two drafter-persona functions (`generateDocumentChecklist`,
`generateVisaDocument`) run the drafter without ever clearing it. -/
theorem session_reset_discipline :
    resetBeforeRun getCommonVisaPurposesOps = true ∧
    resetBeforeRun getTravelAdvisoryOps = true ∧
    (∀ attemptsPerformed : ℕ, resetBeforeRun (searchVisaInfoOps attemptsPerformed) = true) ∧
    resetBeforeRun generateDocumentChecklistOps = false ∧
    resetBeforeRun generateVisaDocumentOps = false := by
  refine ⟨by decide, by decide, ?_, by decide, by decide⟩
  intro n
  show resetBeforeRunAux [] (SessionOp.clear .consultant :: List.replicate n (.run .consultant)) = true
  show resetBeforeRunAux [SessionOp.clear .consultant] (List.replicate n (.run .consultant)) = true
  refine resetBeforeRunAux_all_consultant_runs _ _ ?_ (by decide)
  intro op hop
  exact List.eq_of_mem_replicate hop

/-- C8: every item of a generated checklist has `completed = false`,
whatever `completed`-like field the parsed generation output contained. -/
theorem generateDocumentChecklist_completed_false
    (items : List ChecklistItemJson) (d : DocumentItem)
    (hd : d ∈ finalizeChecklist items) : d.completed = false := by
  obtain ⟨it, _, hit⟩ := List.mem_map.mp hd
  rw [← hit]

/-- Witness for C8: even an item parsed with `completed: true` is returned
with `completed = false`. -/
theorem generateDocumentChecklist_completed_false_witness :
    itemFinalized.completed = false :=
  generateDocumentChecklist_completed_false [itemClaimingCompleted] itemFinalized (by decide)

/-- C10: the evaluator's generation request depends only on the first 3000
characters of the candidate content — two contents agreeing on their first
3000 characters yield the identical evaluation prompt. -/
theorem evaluateOutput_prompt_truncation
    (content₁ content₂ criteria : JStr)
    (h : content₁.take 3000 = content₂.take 3000) :
    buildAuditorPrompt content₁ criteria = buildAuditorPrompt content₂ criteria := by
  unfold buildAuditorPrompt
  rw [h]

/-- Witness for C10: two contents that differ only beyond character 3000
produce the same evaluation prompt. -/
theorem evaluateOutput_prompt_truncation_witness :
    buildAuditorPrompt longContentA [] = buildAuditorPrompt longContentB [] :=
  evaluateOutput_prompt_truncation longContentA longContentB []
    (by
      have h1 : (List.replicate 3001 'a').take 3000 = List.replicate 3000 'a' := by
        rw [List.take_replicate]
        norm_num
      have h2 : (List.replicate 3000 'a' ++ ['b']).take 3000 = List.replicate 3000 'a' :=
        List.take_left' (List.length_replicate 3000 'a')
      show (List.replicate 3001 'a').take 3000 = (List.replicate 3000 'a' ++ ['b']).take 3000
      rw [h1, h2])

/-- C4, at the failing input: an absent or empty evaluator response text
parses to the fail-safe result, but a malformed non-empty text (here a sole
opening brace) makes `JSON.parse` throw, and the exception escapes
`evaluateOutput` — contradicting the claim that any parse failure yields the
fail-safe result. -/
theorem evaluateOutput_malformed_text_throws :
    evaluateOutput none = Except.ok failSafeEvalJson ∧
    evaluateOutput (some []) = Except.ok failSafeEvalJson ∧
    evaluateOutput (some "\x7b".data) = Except.error () := by
  refine ⟨rfl, rfl, rfl⟩

/-- C9 counterexample: a parsed result whose `fullName` field is present
(an empty string) still throws the could-not-extract error, contradicting
the claim that the call succeeds whenever at least one of the two anchor
fields is present. -/
theorem parsePassportImage_present_empty_name_fails :
    passportEmptyName.fullName ≠ none ∧
    extractPassport passportEmptyName = Except.error couldNotExtractMsg := by
  refine ⟨by decide, rfl⟩

/-- C9 amended: `parsePassportImage` throws the could-not-extract error
exactly when both `fullName` and `passportNumber` are absent in the JS
truthiness sense (missing, `null`, or the empty string); it succeeds with
the partial record whenever at least one of the two is a non-empty string,
even if every other field is absent; and surrounding code-fence markers are
stripped from the response text before parsing. -/
theorem parsePassportImage_failure_condition (r : PassportJson) :
    (extractPassport r = Except.error couldNotExtractMsg ↔
      truthyStr r.fullName = false ∧ truthyStr r.passportNumber = false) ∧
    ((truthyStr r.fullName = true ∨ truthyStr r.passportNumber = true) →
      extractPassport r = Except.ok
        { fullName := r.fullName
          passportNumber := r.passportNumber
          citizenship := r.citizenship
          dateOfBirth := r.dateOfBirth
          passportExpiry := r.passportExpiry }) ∧
    (∀ s : JStr, cleanResponseText (fenceOpenJson ++ s ++ fenceClose) = s) := by
  refine ⟨?_, ?_, ?_⟩
  · cases hp : truthyStr r.passportNumber <;> cases hf : truthyStr r.fullName <;>
      simp [extractPassport, hp, hf]
  · intro h
    rcases h with h | h <;> simp [extractPassport, h]
  · intro s
    have hassoc : fenceOpenJson ++ s ++ fenceClose = fenceOpenJson ++ (s ++ fenceClose) := by
      rw [List.append_assoc]
    have hpre0 : fenceMarker.isPrefixOf (fenceOpenJson ++ s ++ fenceClose) = true := by
      rw [List.isPrefixOf_iff_prefix, hassoc]
      exact List.IsPrefix.trans (by decide) (List.prefix_append _ _)
    have hpre1 : fenceOpenJson.isPrefixOf (fenceOpenJson ++ s ++ fenceClose) = true := by
      rw [List.isPrefixOf_iff_prefix, hassoc]
      exact List.prefix_append _ _
    have hdrop : (fenceOpenJson ++ s ++ fenceClose).drop fenceOpenJson.length = s ++ fenceClose := by
      rw [hassoc]
      exact List.drop_left _ _
    have hsuf : fenceClose.isSuffixOf (s ++ fenceClose) = true := by
      rw [List.isSuffixOf_iff_suffix]
      exact List.suffix_append _ _
    have htake : (s ++ fenceClose).take ((s ++ fenceClose).length - fenceClose.length) = s := by
      refine List.take_left' ?_
      rw [List.length_append]
      omega
    unfold cleanResponseText
    rw [hpre0, if_pos rfl]
    unfold stripFenceOpen
    rw [hpre1, if_pos rfl, hdrop]
    unfold stripFenceClose
    rw [hsuf, if_pos rfl, htake]

/-- Witness for the amended C9: a result with only a passport number
succeeds and returns the partial record. -/
theorem parsePassportImage_failure_condition_witness :
    extractPassport passportNumberOnly = Except.ok
      { fullName := none
        passportNumber := some "X1234567".data
        citizenship := none
        dateOfBirth := none
        passportExpiry := none } :=
  (parsePassportImage_failure_condition passportNumberOnly).2.1 (Or.inr (by decide))

end VisaVoyager
